import Mathlib

/-!
Verification of the chunkd credential-resolution and client-caching core.

The development shallowly embeds the two source files of the repository:

* `packages/fs-aws/src/credentials.ts` — prefix-based credential lookup
  (`FsConfigFetcher`, `AwsS3CredentialProvider`), config-document validation
  (`validateConfig`), and the role-keyed client cache (`find`).
* `packages/source-aws-v3/src/s3.v3.ts` — the `OneMegaByte` constant and the
  multi-part upload sizing of the v3 storage adapter (`S3LikeV3`).

Asynchrony is embedded by explicit state passing: each operation that can
touch a config-document memo takes the current state and returns the updated
one, following the single-threaded cooperative scheduling of the host runtime.
Thrown JavaScript errors are embedded as `Except String` with the error
message as the payload.
-/

set_option maxRecDepth 4096

/-- Modelled from the spec: a URL is identified by its full string form
(`href`); `toString()` and `.href` agree on JavaScript URL objects, and URL
construction/normalisation is outside the covered core. -/
structure URL where
  href : String
deriving DecidableEq, Repr

/-- Modelled from the spec: the `AwsCredentialConfig` descriptor shape
declared in `types.ts` (not under `src/`), exactly the wire format of one
entry of `prefixes`: string `prefix` (here `pfx`, since `prefix` is a Lean
keyword), string `roleArn`, optional string `externalId`, optional integer
`roleSessionDuration`, string tag `type`. -/
structure AwsCredentialConfig where
  pfx : String
  roleArn : String
  externalId : Option String
  roleSessionDuration : Option Nat
  type : String
deriving DecidableEq, Repr

/-- Modelled from the spec: the `AwsCredentialProvider` config-document shape
declared in `types.ts` (not under `src/`): integer version field `v` and the
ordered `prefixes` sequence. -/
structure AwsCredentialProvider where
  v : Int
  prefixes : List AwsCredentialConfig
deriving DecidableEq, Repr

/-- Parsed JSON values, the input of `validateConfig`. `undef` is the
JavaScript `undefined` produced by reading an absent object field. -/
inductive Js where
  | undef : Js
  | null : Js
  | bool : Bool → Js
  | num : Int → Js
  | str : String → Js
  | arr : List Js → Js
  | obj : List (String × Js) → Js

/-- JavaScript property read `j.k`: the field value of an object, otherwise
`undefined` (the `cfg == null` guard of `validateConfig` runs first, so the
TypeError on reading a field of `null`/`undefined` cannot occur there). -/
def Js.getField : Js → String → Js
  | .obj fs, k =>
    match fs.find? (fun p => p.fst == k) with
    | some p => p.snd
    | none => Js.undef
  | _, _ => Js.undef

/-- JavaScript loose equality with `null` (`cfg == null`): true exactly on
`null` and `undefined`. -/
def Js.isNullish : Js → Bool
  | .null => true
  | Js.undef => true
  | _ => false

/-- JavaScript strict equality of a value with a number literal, as in
`cfg.v !== 2`. -/
def Js.strictEqNum : Js → Int → Bool
  | .num n, m => n == m
  | _, _ => false

/-- JavaScript `Array.isArray`. -/
def Js.isArray : Js → Bool
  | .arr _ => true
  | _ => false

/-- Basic JSON validation of the configuration (`validateConfig`,
credentials.ts lines 12-18): rejects nullish documents, documents whose `v`
is not the number 2, and documents whose `prefixes` is not an array; each
thrown `Error` message ends with the document location. -/
def validateConfig (cfg : Js) (loc : URL) : Except String Js :=
  if cfg.isNullish then .error ("Unknown configuration from:" ++ loc.href)
  else if (cfg.getField "v").strictEqNum 2 = false then
    .error ("Configuration is not v2 from:" ++ loc.href)
  else if (cfg.getField "prefixes").isArray = false then
    .error ("Configuration prefixes invalid from:" ++ loc.href)
  else .ok cfg

/-- Field access of one validated document entry. The TypeScript casts the
parsed JSON to `AwsCredentialConfig` without conversion; this reads back the
wire-format fields (string `prefix`, string `roleArn`, optional string
`externalId`, optional integer `roleSessionDuration`, optional `type`). -/
def Js.decodeCredential (e : Js) : AwsCredentialConfig :=
  { pfx := match e.getField "prefix" with | .str s => s | _ => ""
    roleArn := match e.getField "roleArn" with | .str s => s | _ => ""
    externalId := match e.getField "externalId" with | .str s => some s | _ => none
    roleSessionDuration :=
      match e.getField "roleSessionDuration" with | .num n => some n.toNat | _ => none
    type := match e.getField "type" with | .str s => s | _ => "" }

/-- Field access of a validated document (cast to `AwsCredentialProvider` in
the TypeScript): version field `v` and the `prefixes` entries in order. -/
def Js.decodeDoc (j : Js) : AwsCredentialProvider :=
  { v := match j.getField "v" with | .num n => n | _ => 0
    prefixes := match j.getField "prefixes" with | .arr xs => xs.map Js.decodeCredential | _ => [] }

/-- JavaScript `String.prototype.startsWith` as the source uses it
(`href.startsWith(credentials.prefix)`): a plain textual check that the
characters of `p` occur at the very start of `s`. -/
def jsStartsWith (s p : String) : Bool :=
  p.data.isPrefixOf s.data

/-- Loop body of `FsConfigFetcher.findCredentials` (credentials.ts lines
44-46): linear scan of the document entries in order, returning the first
entry whose `prefix` passes the starts-with test. -/
def scanPrefixes (href : String) : List AwsCredentialConfig → Option AwsCredentialConfig
  | [] => none
  | c :: rest => if jsStartsWith href c.pfx then some c else scanPrefixes href rest

/-- One megabyte in bytes, as the v3 adapter actually computes it: the source
line reads `1024 * 1204` (s3.v3.ts line 23). -/
def OneMegaByte : Nat := 1024 * 1204

/-- Upload sizing fields of the v3 storage adapter `S3LikeV3` (s3.v3.ts lines
30-34); the request plumbing through the AWS SDK is an external collaborator
and is not modelled. -/
structure S3LikeV3 where
  uploadQueueSize : Nat := 4
  uploadPartSize : Nat := 10 * OneMegaByte
deriving DecidableEq, Repr

/-- External collaborator boundary: the generic file reader composed with
`JSON.parse`. An `error` models either a failed read (fetch error) or
unparseable content (parse error); an `ok` is the parsed JSON document. -/
structure FileSystem where
  readJson : URL → Except String Js

/-- Config-document loader `FsConfigFetcher` (credentials.ts lines 20-49):
one remote location bound to a file reader. -/
structure FsConfigFetcher where
  loc : URL
  fs : FileSystem

/-- Mutable state of one `FsConfigFetcher`. `memo` models the `_config`
memo slot (the settled outcome of the memoized promise); `readCount` is
instrumentation counting how many times the underlying read was started. -/
structure FetcherState where
  memo : Option (Except String AwsCredentialProvider) := none
  readCount : Nat := 0
deriving Repr

/-- Outcome of one underlying fetch: `fs.read(loc)` then `JSON.parse` then
`validateConfig(cfg, loc)` (credentials.ts lines 33-36), with the validated
JSON read back as an `AwsCredentialProvider`. -/
def FsConfigFetcher.fetchConfig (f : FsConfigFetcher) : Except String AwsCredentialProvider :=
  ((f.fs.readJson f.loc).bind (fun cfg => validateConfig cfg f.loc)).map Js.decodeDoc

/-- Memoizing getter `get config` (credentials.ts lines 31-39): answer from
the memo slot if set, otherwise start the one underlying fetch and memoize
its outcome — success or failure — permanently. -/
def FsConfigFetcher.config (f : FsConfigFetcher) (st : FetcherState) :
    Except String AwsCredentialProvider × FetcherState :=
  match st.memo with
  | some r => (r, st)
  | none => (f.fetchConfig, { memo := some f.fetchConfig, readCount := st.readCount + 1 })

/-- Loader lookup `FsConfigFetcher.findCredentials` (credentials.ts lines
41-48): await the memoized document, then scan its `prefixes` in order. -/
def FsConfigFetcher.findCredentials (f : FsConfigFetcher) (st : FetcherState) (loc : URL) :
    Except String (Option AwsCredentialConfig) × FetcherState :=
  ((f.config st).1.map (fun doc => scanPrefixes loc.href doc.prefixes), (f.config st).2)

/-- Sequential calls of `findCredentials` against one loader, one per query
URL, threading the loader state. -/
def FsConfigFetcher.findCredentialsN (f : FsConfigFetcher) :
    List URL → FetcherState → List (Except String (Option AwsCredentialConfig)) × FetcherState
  | [], st => ([], st)
  | loc :: locs, st =>
    ((f.findCredentials st loc).1 :: (f.findCredentialsN locs (f.findCredentials st loc).2).1,
     (f.findCredentialsN locs (f.findCredentials st loc).2).2)

/-- One registered credential source: either an inline descriptor pushed by
`register` or a config-document loader pushed by `registerConfig`; the
TypeScript discriminates the two by probing for a `findCredentials` member
(credentials.ts line 126). The loader variant carries its memo state. -/
inductive ConfigSource where
  | inline : AwsCredentialConfig → ConfigSource
  | fetcher : FsConfigFetcher → FetcherState → ConfigSource

/-- Evaluation of a single source against a URL inside the registry loop
(credentials.ts lines 125-132): an inline descriptor answers the starts-with
test directly and cannot fail; a loader delegates to its `findCredentials`,
which may fail. -/
def evalSource : ConfigSource → URL → Except String (Option AwsCredentialConfig) × ConfigSource
  | .inline c, u =>
    (.ok (if jsStartsWith u.href c.pfx then some c else none), .inline c)
  | .fetcher f st, u =>
    ((f.findCredentials st u).1, .fetcher f (f.findCredentials st u).2)

/-- Registry loop of `AwsS3CredentialProvider.findCredentials` (credentials.ts
lines 123-134): walk the sources in registration order; return the first
match immediately, propagate a loader failure immediately, fall through on a
non-match, and answer `none` when the list is exhausted. The returned list is
the source list with the states of the sources actually evaluated. -/
def findCredentialsList : List ConfigSource → URL →
    Except String (Option AwsCredentialConfig) × List ConfigSource
  | [], _ => (.ok none, [])
  | s :: rest, u =>
    match (evalSource s u).1 with
    | .error e => (.error e, (evalSource s u).2 :: rest)
    | .ok (some c) => (.ok (some c), (evalSource s u).2 :: rest)
    | .ok none =>
      ((findCredentialsList rest u).1, (evalSource s u).2 :: (findCredentialsList rest u).2)

/-- Role-scoped storage client (`FsAwsS3` wrapping an `S3Client`). The
construction itself is an external collaborator; `clientId` is
instrumentation modelling JavaScript object identity (each construction
yields a distinct value), and `credentials` records the descriptor the
client was built from. -/
structure FsAwsS3 where
  clientId : Nat
  credentials : AwsCredentialConfig
deriving DecidableEq, Repr

/-- Client construction `createFileSystem` (credentials.ts lines 65-78),
with the `S3Client`/`fromTemporaryCredentials` internals external. -/
def createFileSystem (clientId : Nat) (cs : AwsCredentialConfig) : FsAwsS3 :=
  { clientId := clientId, credentials := cs }

/-- Lookup in the `fileSystems` map (JavaScript `Map.get`). -/
def mapGet (m : List (String × FsAwsS3)) (k : String) : Option FsAwsS3 :=
  match m.find? (fun p => p.fst == k) with
  | some p => some p.snd
  | none => none

/-- Update of the `fileSystems` map (JavaScript `Map.set`): replace the
binding in place if the key is present, else append it. -/
def mapSet (m : List (String × FsAwsS3)) (k : String) (v : FsAwsS3) :
    List (String × FsAwsS3) :=
  match m with
  | [] => [(k, v)]
  | (k', v') :: rest => if k' == k then (k, v) :: rest else (k', v') :: mapSet rest k v

/-- JavaScript template-literal rendering of a possibly absent string field:
`undefined` prints as "undefined". -/
def renderOptStr : Option String → String
  | none => "undefined"
  | some s => s

/-- JavaScript template-literal rendering of a possibly absent nonnegative
integer field: a number prints in decimal, `undefined` as "undefined". -/
def renderOptNat : Option Nat → String
  | none => "undefined"
  | some n => Nat.repr n

/-- Cache identity key (credentials.ts line 140): the template literal
`${cs.roleArn}__${cs.externalId}__${cs.roleSessionDuration}`. -/
def cacheKey (cs : AwsCredentialConfig) : String :=
  cs.roleArn ++ "__" ++ renderOptStr cs.externalId ++ "__" ++ renderOptNat cs.roleSessionDuration

/-- Provider `AwsS3CredentialProvider` (credentials.ts lines 52-150).
`configs` is the ordered source list, `fileSystems` the client cache.
`createdLog` is instrumentation recording, in order, the invocations of the
optional `onFileSystemCreated` callback; `nextClientId` feeds the client
identity instrumentation. `defaultSessionDuration` is carried for fidelity
(it is consumed only inside the external client construction). -/
structure AwsS3CredentialProvider where
  configs : List ConfigSource := []
  fileSystems : List (String × FsAwsS3) := []
  createdLog : List (AwsCredentialConfig × FsAwsS3) := []
  nextClientId : Nat := 0
  defaultSessionDuration : Option Nat := none

/-- Registration of an inline descriptor (credentials.ts lines 102-104):
append it with the `type` field normalised to the storage tag. -/
def AwsS3CredentialProvider.register (p : AwsS3CredentialProvider) (f : AwsCredentialConfig) :
    AwsS3CredentialProvider :=
  { p with configs := p.configs ++ [.inline { f with type := "s3" }] }

/-- Registration of a config-document loader (credentials.ts lines 118-120):
append a fresh fetcher with an empty memo slot; no fetch is triggered. -/
def AwsS3CredentialProvider.registerConfig (p : AwsS3CredentialProvider) (loc : URL)
    (fs : FileSystem) : AwsS3CredentialProvider :=
  { p with configs := p.configs ++ [.fetcher { loc := loc, fs := fs } {}] }

/-- Registry lookup `AwsS3CredentialProvider.findCredentials`, threading the
updated source states through the provider. -/
def AwsS3CredentialProvider.findCredentials (p : AwsS3CredentialProvider) (loc : URL) :
    Except String (Option AwsCredentialConfig) × AwsS3CredentialProvider :=
  ((findCredentialsList p.configs loc).1,
   { p with configs := (findCredentialsList p.configs loc).2 })

/-- Client lookup `AwsS3CredentialProvider.find` (credentials.ts lines
136-149): resolve a descriptor (propagating none and failures unchanged);
on a match, answer the cached client for the identity key if present,
otherwise construct one, store it under the key, record the
`onFileSystemCreated` invocation, and return it. -/
def AwsS3CredentialProvider.find (p : AwsS3CredentialProvider) (path : URL) :
    Except String (Option FsAwsS3) × AwsS3CredentialProvider :=
  match (p.findCredentials path).1 with
  | .error e => (.error e, (p.findCredentials path).2)
  | .ok none => (.ok none, (p.findCredentials path).2)
  | .ok (some cs) =>
    match mapGet (p.findCredentials path).2.fileSystems (cacheKey cs) with
    | some existing => (.ok (some existing), (p.findCredentials path).2)
    | none =>
      (.ok (some (createFileSystem (p.findCredentials path).2.nextClientId cs)),
       { (p.findCredentials path).2 with
         fileSystems := mapSet (p.findCredentials path).2.fileSystems (cacheKey cs)
           (createFileSystem (p.findCredentials path).2.nextClientId cs)
         createdLog := (p.findCredentials path).2.createdLog
           ++ [(cs, createFileSystem (p.findCredentials path).2.nextClientId cs)]
         nextClientId := (p.findCredentials path).2.nextClientId + 1 })

/-- Decimal digit list of a natural number, most significant first: the
specification of what `Nat.repr` prints. -/
def natToDecR (n : Nat) : List Char :=
  if h : n / 10 = 0 then [Nat.digitChar (n % 10)]
  else natToDecR (n / 10) ++ [Nat.digitChar (n % 10)]
termination_by n
decreasing_by exact Nat.div_lt_self (by omega) (by omega)

/-- Decimal evaluation of a digit list, the left inverse of `natToDecR`. -/
def parseDec (l : List Char) : Nat :=
  l.foldl (fun a c => a * 10 + (c.toNat - 48)) 0

/-- Example file reader whose reads always fail. -/
def exFsErr : FileSystem :=
  { readJson := fun _ => .error "EACCES: permission denied" }

/-- Example file reader delivering a document with version 1. -/
def exFsV1 : FileSystem :=
  { readJson := fun _ => .ok (Js.obj [("v", Js.num 1), ("prefixes", Js.arr [])]) }

/-- Example loader bound to the failing reader. -/
def exFetcherErr : FsConfigFetcher :=
  { loc := { href := "s3://cfg/creds.json" }, fs := exFsErr }

/-- Example loader bound to the version-1 document reader. -/
def exFetcherV1 : FsConfigFetcher :=
  { loc := { href := "s3://cfg/creds.json" }, fs := exFsV1 }

/-- Example inline descriptor for bucket a. -/
def exCfgA : AwsCredentialConfig :=
  { pfx := "s3://bucket-a/", roleArn := "role-A", externalId := none,
    roleSessionDuration := none, type := "s3" }

/-- Example inline descriptor for bucket b. -/
def exCfgB : AwsCredentialConfig :=
  { pfx := "s3://bucket-b/", roleArn := "role-B", externalId := some "ext-b",
    roleSessionDuration := some 900, type := "s3" }

/-- Example inline descriptor that matches no URL used in the witnesses. -/
def exCfgO : AwsCredentialConfig :=
  { pfx := "s3://other/", roleArn := "role-O", externalId := none,
    roleSessionDuration := none, type := "s3" }

/-- Example inline descriptor for bucket a under a second role, used to show
that a later-registered matching source loses. -/
def exCfgZ : AwsCredentialConfig :=
  { pfx := "s3://bucket-a/", roleArn := "role-Z", externalId := none,
    roleSessionDuration := none, type := "s3" }

/-- Example inline descriptor agreeing with `exCfgB` on the identity triple
(`roleArn`, `externalId`, `roleSessionDuration`) but under another prefix. -/
def exCfgB2 : AwsCredentialConfig :=
  { pfx := "s3://bucket-c/", roleArn := "role-B", externalId := some "ext-b",
    roleSessionDuration := some 900, type := "s3" }

/-- Example descriptor whose `roleArn` contains the key separator `__`. -/
def exCfgColl1 : AwsCredentialConfig :=
  { pfx := "s3://a/", roleArn := "role__x", externalId := some "e",
    roleSessionDuration := none, type := "s3" }

/-- Example descriptor colliding with `exCfgColl1` in the client cache while
naming a different role. -/
def exCfgColl2 : AwsCredentialConfig :=
  { pfx := "s3://b/", roleArn := "role", externalId := some "x__e",
    roleSessionDuration := none, type := "s3" }

lemma string_data_inj {a b : String} (h : a.data = b.data) : a = b := by
  cases a
  cases b
  exact congrArg String.mk h

lemma jsStartsWith_iff (s p : String) :
    jsStartsWith s p = true ↔ ∃ t : String, s = p ++ t := by
  unfold jsStartsWith
  rw [List.isPrefixOf_iff_prefix]
  constructor
  · intro h
    obtain ⟨t, ht⟩ := h
    refine ⟨⟨t⟩, ?_⟩
    apply string_data_inj
    rw [String.data_append]
    exact ht.symm
  · rintro ⟨t, ht⟩
    refine ⟨t.data, ?_⟩
    rw [ht, String.data_append]

/-- C1: a URL matches a registered inline descriptor, and likewise one entry
of a fetched config document, exactly when the URL's full string form starts
textually with the descriptor's prefix — a plain starts-with test, that is,
the prefix followed by an arbitrary (possibly empty) remainder, with no
path-segment awareness. -/
theorem c1_matches (u : URL) (c : AwsCredentialConfig) :
    ((evalSource (ConfigSource.inline c) u).1 = .ok (some c)
        ↔ jsStartsWith u.href c.pfx = true)
    ∧ (scanPrefixes u.href [c] = some c ↔ jsStartsWith u.href c.pfx = true)
    ∧ (jsStartsWith u.href c.pfx = true ↔ ∃ t : String, u.href = c.pfx ++ t) := by
  refine ⟨?_, ?_, jsStartsWith_iff u.href c.pfx⟩
  · cases h : jsStartsWith u.href c.pfx <;> simp [evalSource, h]
  · cases h : jsStartsWith u.href c.pfx <;> simp [scanPrefixes, h]

/-- C10: the `OneMegaByte` constant of the v3 adapter evaluates to
`1024 * 1204 = 1232896`, not `2 ^ 20 = 1048576`, and the default
`uploadPartSize` is therefore `12328960`, not `10485760`. -/
theorem c10_oneMegaByte :
    OneMegaByte = 1232896 ∧ OneMegaByte ≠ 1048576
      ∧ ({} : S3LikeV3).uploadPartSize = 12328960
      ∧ ({} : S3LikeV3).uploadPartSize ≠ 10485760 := by
  refine ⟨by decide, by decide, by decide, by decide⟩

lemma findCredentialsList_cons_error {s : ConfigSource} {u : URL} {e : String}
    (rest : List ConfigSource) (h : (evalSource s u).1 = .error e) :
    findCredentialsList (s :: rest) u = (.error e, (evalSource s u).2 :: rest) := by
  simp only [findCredentialsList, h]

lemma findCredentialsList_cons_some {s : ConfigSource} {u : URL} {c : AwsCredentialConfig}
    (rest : List ConfigSource) (h : (evalSource s u).1 = .ok (some c)) :
    findCredentialsList (s :: rest) u = (.ok (some c), (evalSource s u).2 :: rest) := by
  simp only [findCredentialsList, h]

lemma findCredentialsList_cons_none {s : ConfigSource} {u : URL}
    (rest : List ConfigSource) (h : (evalSource s u).1 = .ok none) :
    findCredentialsList (s :: rest) u
      = ((findCredentialsList rest u).1, (evalSource s u).2 :: (findCredentialsList rest u).2) := by
  simp only [findCredentialsList, h]

/-- C2: the registry evaluates sources in registration order and answers with
the first match: if every source registered before `s` reports no match and
`s` matches with descriptor `c`, the lookup returns `c`, and the sources
after `s` are returned in their original states — they are not evaluated, so
whenever two sources both match, the earlier-registered one wins. -/
theorem c2_order (l1 l2 : List ConfigSource) (s : ConfigSource) (u : URL)
    (c : AwsCredentialConfig)
    (hnone : ∀ s' ∈ l1, (evalSource s' u).1 = .ok none)
    (hmatch : (evalSource s u).1 = .ok (some c)) :
    (findCredentialsList (l1 ++ s :: l2) u).1 = .ok (some c)
    ∧ (findCredentialsList (l1 ++ s :: l2) u).2
        = l1.map (fun t => (evalSource t u).2) ++ (evalSource s u).2 :: l2 := by
  induction l1 with
  | nil =>
    rw [List.nil_append, findCredentialsList_cons_some l2 hmatch]
    exact ⟨rfl, rfl⟩
  | cons a t ih =>
    have ha : (evalSource a u).1 = .ok none := hnone a (List.mem_cons_self a t)
    obtain ⟨ih1, ih2⟩ := ih (fun s' hs' => hnone s' (List.mem_cons_of_mem a hs'))
    rw [List.cons_append, findCredentialsList_cons_none _ ha]
    refine ⟨ih1, ?_⟩
    rw [List.map_cons, List.cons_append, ih2]

/-- C2 witness: with a non-matching source registered first, a matching
source `s` second and another matching source registered after `s`, the
lookup returns the descriptor of `s` and leaves the later source untouched. -/
theorem c2_order_witness :
    ((∀ s' ∈ [ConfigSource.inline exCfgO],
      (evalSource s' { href := "s3://bucket-a/key.txt" }).1 = .ok none)
    ∧ (evalSource (ConfigSource.inline exCfgA) { href := "s3://bucket-a/key.txt" }).1
        = .ok (some exCfgA))
    ∧ findCredentialsList
        ([ConfigSource.inline exCfgO]
          ++ ConfigSource.inline exCfgA :: [ConfigSource.inline exCfgZ])
        { href := "s3://bucket-a/key.txt" }
      = (.ok (some exCfgA),
         [ConfigSource.inline exCfgO, ConfigSource.inline exCfgA, ConfigSource.inline exCfgZ]) := by
  refine ⟨⟨?_, rfl⟩, ?_⟩
  · intro s' hs'
    rw [List.mem_singleton] at hs'
    subst hs'
    rfl
  · have h := c2_order [ConfigSource.inline exCfgO] [ConfigSource.inline exCfgZ]
      (ConfigSource.inline exCfgA) { href := "s3://bucket-a/key.txt" } exCfgA
      (by intro s' hs'; rw [List.mem_singleton] at hs'; subst hs'; rfl) rfl
    calc findCredentialsList
          ([ConfigSource.inline exCfgO]
            ++ ConfigSource.inline exCfgA :: [ConfigSource.inline exCfgZ])
          { href := "s3://bucket-a/key.txt" }
        = (.ok (some exCfgA),
            [ConfigSource.inline exCfgO].map
                (fun t => (evalSource t { href := "s3://bucket-a/key.txt" }).2)
              ++ (evalSource (ConfigSource.inline exCfgA)
                    { href := "s3://bucket-a/key.txt" }).2
                :: [ConfigSource.inline exCfgZ]) := Prod.ext h.1 h.2
      _ = (.ok (some exCfgA),
            [ConfigSource.inline exCfgO, ConfigSource.inline exCfgA,
              ConfigSource.inline exCfgZ]) := rfl

lemma config_memo {f : FsConfigFetcher} {st : FetcherState}
    {r : Except String AwsCredentialProvider} (h : st.memo = some r) :
    f.config st = (r, st) := by
  simp only [FsConfigFetcher.config, h]

lemma config_fresh {f : FsConfigFetcher} {st : FetcherState} (h : st.memo = none) :
    f.config st
      = (f.fetchConfig, { memo := some f.fetchConfig, readCount := st.readCount + 1 }) := by
  simp only [FsConfigFetcher.config, h]

lemma findCredentials_memo {f : FsConfigFetcher} {st : FetcherState}
    {r : Except String AwsCredentialProvider} (h : st.memo = some r) (loc : URL) :
    f.findCredentials st loc
      = (r.map (fun doc => scanPrefixes loc.href doc.prefixes), st) := by
  unfold FsConfigFetcher.findCredentials
  rw [config_memo h]

lemma findCredentialsN_memoized (f : FsConfigFetcher) (locs : List URL) (st : FetcherState)
    (h : st.memo = some f.fetchConfig) :
    f.findCredentialsN locs st
      = (locs.map
          (fun loc => f.fetchConfig.map (fun doc => scanPrefixes loc.href doc.prefixes)), st) := by
  induction locs with
  | nil => rfl
  | cons loc rest ih =>
    unfold FsConfigFetcher.findCredentialsN
    rw [findCredentials_memo h, ih, List.map_cons]

/-- C3: against one loader, any positive number of `findCredentials` calls
triggers exactly one underlying read; the outcome of that single
read-parse-validate — the resolved document or the error — is memoized and
every call answers from it, so a memoized failure is never retried. -/
theorem c3_fetch_once (f : FsConfigFetcher) (locs : List URL) (hne : locs ≠ []) :
    (f.findCredentialsN locs {}).2.readCount = 1
    ∧ (f.findCredentialsN locs {}).2.memo = some f.fetchConfig
    ∧ (f.findCredentialsN locs {}).1
        = locs.map (fun loc => f.fetchConfig.map (fun doc => scanPrefixes loc.href doc.prefixes)) := by
  cases locs with
  | nil => exact absurd rfl hne
  | cons loc rest =>
    have hfirst : f.findCredentials {} loc
        = (f.fetchConfig.map (fun doc => scanPrefixes loc.href doc.prefixes),
           { memo := some f.fetchConfig, readCount := 1 }) := by
      unfold FsConfigFetcher.findCredentials
      rw [config_fresh rfl]
    unfold FsConfigFetcher.findCredentialsN
    rw [hfirst, findCredentialsN_memoized f rest _ rfl, List.map_cons]
    exact ⟨rfl, rfl, rfl⟩

/-- C3 witness: three lookups against a loader whose underlying read fails
perform one read in total and all observe the same memoized error. -/
theorem c3_fetch_once_witness :
    ([{ href := "s3://bucket-a/x" }, { href := "s3://bucket-b/x" },
        { href := "s3://bucket-a/y" }] ≠ ([] : List URL))
    ∧ (exFetcherErr.findCredentialsN
        [{ href := "s3://bucket-a/x" }, { href := "s3://bucket-b/x" },
          { href := "s3://bucket-a/y" }] {}).2.readCount = 1
    ∧ (exFetcherErr.findCredentialsN
        [{ href := "s3://bucket-a/x" }, { href := "s3://bucket-b/x" },
          { href := "s3://bucket-a/y" }] {}).1
        = [.error "EACCES: permission denied", .error "EACCES: permission denied",
           .error "EACCES: permission denied"] := by
  have h := c3_fetch_once exFetcherErr
    [{ href := "s3://bucket-a/x" }, { href := "s3://bucket-b/x" },
      { href := "s3://bucket-a/y" }] (by simp)
  exact ⟨by simp, h.1, by rw [h.2.2]; rfl⟩

lemma find_error {p : AwsS3CredentialProvider} {u : URL} {e : String}
    (h : (p.findCredentials u).1 = .error e) :
    p.find u = (.error e, (p.findCredentials u).2) := by
  simp only [AwsS3CredentialProvider.find, h]

lemma find_none {p : AwsS3CredentialProvider} {u : URL}
    (h : (p.findCredentials u).1 = .ok none) :
    p.find u = (.ok none, (p.findCredentials u).2) := by
  simp only [AwsS3CredentialProvider.find, h]

lemma find_hit {p : AwsS3CredentialProvider} {u : URL} {cs : AwsCredentialConfig}
    {fs0 : FsAwsS3} (hres : (p.findCredentials u).1 = .ok (some cs))
    (hget : mapGet p.fileSystems (cacheKey cs) = some fs0) :
    p.find u = (.ok (some fs0), (p.findCredentials u).2) := by
  simp only [AwsS3CredentialProvider.find, hres]
  rw [show (p.findCredentials u).2.fileSystems = p.fileSystems from rfl, hget]

lemma find_miss {p : AwsS3CredentialProvider} {u : URL} {cs : AwsCredentialConfig}
    (hres : (p.findCredentials u).1 = .ok (some cs))
    (hget : mapGet p.fileSystems (cacheKey cs) = none) :
    p.find u = (.ok (some (createFileSystem p.nextClientId cs)),
      { (p.findCredentials u).2 with
        fileSystems := mapSet p.fileSystems (cacheKey cs)
          (createFileSystem p.nextClientId cs)
        createdLog := p.createdLog ++ [(cs, createFileSystem p.nextClientId cs)]
        nextClientId := p.nextClientId + 1 }) := by
  simp only [AwsS3CredentialProvider.find, hres]
  rw [show (p.findCredentials u).2.fileSystems = p.fileSystems from rfl, hget]
  rfl

lemma findCredentialsList_error_first (l1 l2 : List ConfigSource) (s : ConfigSource)
    (u : URL) (e : String)
    (hnone : ∀ s' ∈ l1, (evalSource s' u).1 = .ok none)
    (herr : (evalSource s u).1 = .error e) :
    (findCredentialsList (l1 ++ s :: l2) u).1 = .error e := by
  induction l1 with
  | nil => rw [List.nil_append, findCredentialsList_cons_error l2 herr]
  | cons a t ih =>
    have ha : (evalSource a u).1 = .ok none := hnone a (List.mem_cons_self a t)
    rw [List.cons_append, findCredentialsList_cons_none _ ha]
    exact ih (fun s' hs' => hnone s' (List.mem_cons_of_mem a hs'))

/-- C6: when the lookup reaches a config-document loader whose memoized fetch
is a failure (covering a fetch, parse or validation error), that error is
returned unchanged by the loader's `findCredentials`, by the registry's
`findCredentials`, and by `find` — the whole lookup aborts and no source
registered after the failing loader is consulted, whatever it contains. -/
theorem c6_error_propagation (p : AwsS3CredentialProvider) (l1 l2 : List ConfigSource)
    (f : FsConfigFetcher) (st : FetcherState) (u : URL) (e : String)
    (hp : p.configs = l1 ++ ConfigSource.fetcher f st :: l2)
    (hnone : ∀ s' ∈ l1, (evalSource s' u).1 = .ok none)
    (herr : (f.config st).1 = .error e) :
    (f.findCredentials st u).1 = .error e
    ∧ (p.findCredentials u).1 = .error e
    ∧ (p.find u).1 = .error e := by
  have hf : (f.findCredentials st u).1 = .error e := by
    unfold FsConfigFetcher.findCredentials
    rw [herr]
    rfl
  have hreg : (p.findCredentials u).1 = .error e := by
    unfold AwsS3CredentialProvider.findCredentials
    rw [hp]
    exact findCredentialsList_error_first l1 l2 _ u e hnone hf
  refine ⟨hf, hreg, ?_⟩
  rw [find_error hreg]

/-- C6 witness: a loader whose underlying read fails is registered before an
inline source that matches the URL; the registry lookup and `find` both fail
with the loader's error instead of falling through to the later match. -/
theorem c6_error_propagation_witness :
    ((evalSource (ConfigSource.inline exCfgA) { href := "s3://bucket-a/key.txt" }).1
        = .ok (some exCfgA))
    ∧ (exFetcherErr.config {}).1 = .error "EACCES: permission denied"
    ∧ (AwsS3CredentialProvider.find
        { configs := [ConfigSource.fetcher exFetcherErr {}, ConfigSource.inline exCfgA] }
        { href := "s3://bucket-a/key.txt" }).1 = .error "EACCES: permission denied" := by
  refine ⟨rfl, rfl, ?_⟩
  exact (c6_error_propagation
    { configs := [ConfigSource.fetcher exFetcherErr {}, ConfigSource.inline exCfgA] }
    [] [ConfigSource.inline exCfgA] exFetcherErr {} { href := "s3://bucket-a/key.txt" }
    "EACCES: permission denied" rfl
    (by intro s' hs'; exact absurd hs' (List.not_mem_nil s')) rfl).2.2

/-- C8: when the registry reports no match, `find` answers `none` rather than
throwing, constructs no client, and leaves the cache, the creation log and
the client counter unchanged. -/
theorem c8_no_match (p : AwsS3CredentialProvider) (u : URL)
    (h : (p.findCredentials u).1 = .ok none) :
    (p.find u).1 = .ok none
    ∧ (p.find u).2.fileSystems = p.fileSystems
    ∧ (p.find u).2.createdLog = p.createdLog
    ∧ (p.find u).2.nextClientId = p.nextClientId := by
  rw [find_none h]
  exact ⟨rfl, rfl, rfl, rfl⟩

/-- C8 witness: a registry holding one inline source that does not match the
queried URL answers `none` from `find` and keeps its cache state. -/
theorem c8_no_match_witness :
    ((AwsS3CredentialProvider.findCredentials { configs := [ConfigSource.inline exCfgA] }
        { href := "s3://elsewhere/key.txt" }).1 = .ok none)
    ∧ (AwsS3CredentialProvider.find { configs := [ConfigSource.inline exCfgA] }
        { href := "s3://elsewhere/key.txt" }).1 = .ok none
    ∧ (AwsS3CredentialProvider.find { configs := [ConfigSource.inline exCfgA] }
        { href := "s3://elsewhere/key.txt" }).2.fileSystems = [] := by
  refine ⟨rfl, ?_, ?_⟩
  · exact (c8_no_match { configs := [ConfigSource.inline exCfgA] }
      { href := "s3://elsewhere/key.txt" } rfl).1
  · rfl

lemma mapGet_mapSet_self (m : List (String × FsAwsS3)) (k : String) (v : FsAwsS3) :
    mapGet (mapSet m k v) k = some v := by
  induction m with
  | nil => simp [mapGet, mapSet]
  | cons q rest ih =>
    rcases q with ⟨k', v'⟩
    by_cases h : k' == k
    · simp [mapGet, mapSet, h]
    · simp only [mapSet, h, Bool.false_eq_true, if_false]
      simpa [mapGet, h] using ih

/-- C5: `find` on a cache miss returns the freshly constructed client, has
already stored it under its identity key in the returned state, and records
exactly one invocation of the creation observer, carrying the matching
descriptor and that client; on a cache hit the cached client is returned and
the observer is not invoked. -/
theorem c5_population (p : AwsS3CredentialProvider) (u : URL) (cs : AwsCredentialConfig)
    (hres : (p.findCredentials u).1 = .ok (some cs)) :
    (mapGet p.fileSystems (cacheKey cs) = none →
      (p.find u).1 = .ok (some (createFileSystem p.nextClientId cs))
      ∧ mapGet (p.find u).2.fileSystems (cacheKey cs)
          = some (createFileSystem p.nextClientId cs)
      ∧ (p.find u).2.createdLog
          = p.createdLog ++ [(cs, createFileSystem p.nextClientId cs)])
    ∧ (∀ fs0, mapGet p.fileSystems (cacheKey cs) = some fs0 →
      (p.find u).1 = .ok (some fs0) ∧ (p.find u).2.createdLog = p.createdLog) := by
  constructor
  · intro hget
    rw [find_miss hres hget]
    exact ⟨rfl, mapGet_mapSet_self _ _ _, rfl⟩
  · intro fs0 hget
    rw [find_hit hres hget]
    exact ⟨rfl, rfl⟩

/-- C5 witness: on a fresh provider holding one matching inline source, the
first `find` constructs client 0, stores it under the identity key and logs
exactly one observer invocation. -/
theorem c5_population_witness :
    ((AwsS3CredentialProvider.findCredentials { configs := [ConfigSource.inline exCfgB] }
        { href := "s3://bucket-b/data.bin" }).1 = .ok (some exCfgB)
      ∧ mapGet ([] : List (String × FsAwsS3)) (cacheKey exCfgB) = none)
    ∧ ((AwsS3CredentialProvider.find { configs := [ConfigSource.inline exCfgB] }
          { href := "s3://bucket-b/data.bin" }).1
        = .ok (some (createFileSystem 0 exCfgB))
      ∧ (AwsS3CredentialProvider.find { configs := [ConfigSource.inline exCfgB] }
          { href := "s3://bucket-b/data.bin" }).2.createdLog
        = [(exCfgB, createFileSystem 0 exCfgB)]) := by
  have h := c5_population { configs := [ConfigSource.inline exCfgB] }
    { href := "s3://bucket-b/data.bin" } exCfgB rfl
  have hm := h.1 rfl
  exact ⟨⟨rfl, rfl⟩, hm.1, hm.2.2⟩

/-- C4: if a lookup resolves descriptor `cs1` and yields client `fs1`, then a
second lookup on the updated provider resolving any descriptor `cs2` that
agrees with `cs1` on `roleArn`, `externalId` and `roleSessionDuration` — the
prefixes may differ — returns the identical client `fs1` from the cache and
constructs nothing (the client counter is unchanged), so at most one client
exists per identity key under sequential use. -/
theorem c4_identity (p : AwsS3CredentialProvider) (u1 u2 : URL)
    (cs1 cs2 : AwsCredentialConfig) (fs1 : FsAwsS3)
    (h1 : (p.findCredentials u1).1 = .ok (some cs1))
    (hfind1 : (p.find u1).1 = .ok (some fs1))
    (h2 : ((p.find u1).2.findCredentials u2).1 = .ok (some cs2))
    (hr : cs2.roleArn = cs1.roleArn) (he : cs2.externalId = cs1.externalId)
    (hd : cs2.roleSessionDuration = cs1.roleSessionDuration) :
    ((p.find u1).2.find u2).1 = .ok (some fs1)
    ∧ ((p.find u1).2.find u2).2.nextClientId = (p.find u1).2.nextClientId := by
  have hstored : mapGet (p.find u1).2.fileSystems (cacheKey cs1) = some fs1 := by
    cases hget : mapGet p.fileSystems (cacheKey cs1) with
    | some fs0 =>
      have heq := find_hit h1 hget
      rw [heq] at hfind1
      have : fs0 = fs1 := by simpa using hfind1
      rw [heq, ← this]
      exact hget
    | none =>
      have heq := find_miss h1 hget
      rw [heq] at hfind1
      have : createFileSystem p.nextClientId cs1 = fs1 := by simpa using hfind1
      rw [heq, ← this]
      exact mapGet_mapSet_self _ _ _
  have hkey : cacheKey cs2 = cacheKey cs1 := by
    unfold cacheKey
    rw [hr, he, hd]
  have hsecond := find_hit h2 (by rw [hkey]; exact hstored)
  rw [hsecond]
  exact ⟨rfl, rfl⟩

/-- C4 witness: two inline descriptors share the identity triple under
different prefixes; `find` on the first URL constructs client 0 and `find`
on the second URL returns that identical client without constructing. -/
theorem c4_identity_witness :
    ((AwsS3CredentialProvider.findCredentials
        { configs := [ConfigSource.inline exCfgB, ConfigSource.inline exCfgB2] }
        { href := "s3://bucket-b/x" }).1 = .ok (some exCfgB)
     ∧ (AwsS3CredentialProvider.find
        { configs := [ConfigSource.inline exCfgB, ConfigSource.inline exCfgB2] }
        { href := "s3://bucket-b/x" }).1 = .ok (some (createFileSystem 0 exCfgB))
     ∧ ((AwsS3CredentialProvider.find
        { configs := [ConfigSource.inline exCfgB, ConfigSource.inline exCfgB2] }
        { href := "s3://bucket-b/x" }).2.findCredentials
          { href := "s3://bucket-c/x" }).1 = .ok (some exCfgB2)
     ∧ exCfgB2.roleArn = exCfgB.roleArn ∧ exCfgB2.pfx ≠ exCfgB.pfx)
    ∧ (((AwsS3CredentialProvider.find
        { configs := [ConfigSource.inline exCfgB, ConfigSource.inline exCfgB2] }
        { href := "s3://bucket-b/x" }).2.find { href := "s3://bucket-c/x" }).1
          = .ok (some (createFileSystem 0 exCfgB))
     ∧ ((AwsS3CredentialProvider.find
        { configs := [ConfigSource.inline exCfgB, ConfigSource.inline exCfgB2] }
        { href := "s3://bucket-b/x" }).2.find { href := "s3://bucket-c/x" }).2.nextClientId
          = 1) := by
  have h := c4_identity
    { configs := [ConfigSource.inline exCfgB, ConfigSource.inline exCfgB2] }
    { href := "s3://bucket-b/x" } { href := "s3://bucket-c/x" }
    exCfgB exCfgB2 (createFileSystem 0 exCfgB) rfl rfl rfl rfl rfl rfl
  exact ⟨⟨rfl, rfl, rfl, rfl, by decide⟩, h.1, h.2⟩

/-- C7 counterexample: the rejection of a document with `prefixes` missing
and the rejection of a document whose `prefixes` is a scalar carry the very
same error — the three validation rejections are not pairwise distinct. -/
theorem c7_counterexample :
    validateConfig (Js.obj [("v", Js.num 2)]) { href := "s3://cfg/creds.json" }
      = .error "Configuration prefixes invalid from:s3://cfg/creds.json"
    ∧ validateConfig (Js.obj [("v", Js.num 2), ("prefixes", Js.str "not-a-list")])
        { href := "s3://cfg/creds.json" }
      = .error "Configuration prefixes invalid from:s3://cfg/creds.json" := by
  exact ⟨rfl, rfl⟩

lemma isNullish_eq_false {cfg : Js} (h1 : cfg ≠ Js.null) (h2 : cfg ≠ Js.undef) :
    cfg.isNullish = false := by
  cases cfg
  case null => exact absurd rfl h1
  case undef => exact absurd rfl h2
  all_goals rfl

lemma strictEqNum_two_eq_false {j : Js} (h : j ≠ Js.num 2) : j.strictEqNum 2 = false := by
  cases j
  case num n =>
    have hn : n ≠ 2 := fun e => h (by rw [e])
    simp [Js.strictEqNum, hn]
  all_goals rfl

lemma isArray_eq_false {j : Js} (h : ∀ xs, j ≠ Js.arr xs) : j.isArray = false := by
  cases j
  case arr xs => exact absurd rfl (h xs)
  all_goals rfl

/-- C7 as amended: validation rejects every non-nullish document whose `v`
field is not strictly the number 2 with the version error, and every
non-nullish version-2 document whose `prefixes` field is not a sequence —
whether the field is missing or holds a value of any other shape — with the
prefixes error; each message ends with the document location; the version
rejection is distinct from the prefixes rejections, while the
missing-prefixes and non-sequence-prefixes rejections share one error kind;
and a document failing validation makes the loader lookup fail before any
entry is consulted. -/
theorem c7_amended (loc : URL) :
    (∀ cfg : Js, cfg ≠ Js.null → cfg ≠ Js.undef → cfg.getField "v" ≠ Js.num 2 →
        validateConfig cfg loc = .error ("Configuration is not v2 from:" ++ loc.href))
    ∧ (∀ cfg : Js, cfg ≠ Js.null → cfg ≠ Js.undef → cfg.getField "v" = Js.num 2 →
        (∀ xs, cfg.getField "prefixes" ≠ Js.arr xs) →
        validateConfig cfg loc = .error ("Configuration prefixes invalid from:" ++ loc.href))
    ∧ ("Configuration is not v2 from:" ++ loc.href
        ≠ "Configuration prefixes invalid from:" ++ loc.href)
    ∧ (∀ (f : FsConfigFetcher) (st : FetcherState) (u : URL) (j : Js) (e : String),
        st.memo = none → f.fs.readJson f.loc = .ok j → validateConfig j f.loc = .error e →
        (f.findCredentials st u).1 = .error e) := by
  refine ⟨?_, ?_, ?_, ?_⟩
  · intro cfg h1 h2 hv
    unfold validateConfig
    rw [isNullish_eq_false h1 h2, strictEqNum_two_eq_false hv]
    rfl
  · intro cfg h1 h2 hv harr
    unfold validateConfig
    rw [isNullish_eq_false h1 h2, hv, isArray_eq_false harr]
    rfl
  · intro h
    have hd := congrArg String.data h
    simp only [String.data_append] at hd
    have hl := congrArg List.length hd
    simp only [List.length_append] at hl
    rw [show ("Configuration is not v2 from:" : String).data.length = 29 from rfl,
      show ("Configuration prefixes invalid from:" : String).data.length = 36 from rfl] at hl
    omega
  · intro f st u j e hmemo hread hval
    unfold FsConfigFetcher.findCredentials
    rw [config_fresh hmemo]
    unfold FsConfigFetcher.fetchConfig
    rw [hread]
    simp only [Except.bind]
    rw [hval]
    rfl

/-- C7 witness: the version-1 document is rejected with the version error, a
version-2 document carrying scalar `prefixes` is rejected with the prefixes
error, and a loader delivering the version-1 document fails its lookup with
the version error naming the document location. -/
theorem c7_amended_witness :
    ((Js.obj [("v", Js.num 1), ("prefixes", Js.arr [])]).getField "v" ≠ Js.num 2
     ∧ validateConfig (Js.obj [("v", Js.num 1), ("prefixes", Js.arr [])])
        { href := "s3://cfg/creds.json" }
        = .error "Configuration is not v2 from:s3://cfg/creds.json")
    ∧ ((Js.obj [("v", Js.num 2), ("prefixes", Js.str "not-a-list")]).getField "v" = Js.num 2
     ∧ validateConfig (Js.obj [("v", Js.num 2), ("prefixes", Js.str "not-a-list")])
        { href := "s3://cfg/creds.json" }
        = .error "Configuration prefixes invalid from:s3://cfg/creds.json")
    ∧ (({} : FetcherState).memo = none
     ∧ exFetcherV1.fs.readJson exFetcherV1.loc
        = .ok (Js.obj [("v", Js.num 1), ("prefixes", Js.arr [])])
     ∧ (exFetcherV1.findCredentials {} { href := "s3://bucket-a/x" }).1
        = .error "Configuration is not v2 from:s3://cfg/creds.json") := by
  refine ⟨⟨?_, ?_⟩, ⟨rfl, ?_⟩, rfl, rfl, ?_⟩
  · intro h
    injection h with h'
    exact absurd h' (by decide)
  · exact (c7_amended { href := "s3://cfg/creds.json" }).1
      (Js.obj [("v", Js.num 1), ("prefixes", Js.arr [])])
      (fun h => Js.noConfusion h) (fun h => Js.noConfusion h)
      (fun h => by injection h with h'; exact absurd h' (by decide))
  · exact (c7_amended { href := "s3://cfg/creds.json" }).2.1
      (Js.obj [("v", Js.num 2), ("prefixes", Js.str "not-a-list")])
      (fun h => Js.noConfusion h) (fun h => Js.noConfusion h) rfl
      (fun xs h => Js.noConfusion h)
  · exact (c7_amended exFetcherV1.loc).2.2.2 exFetcherV1 {} { href := "s3://bucket-a/x" }
      (Js.obj [("v", Js.num 1), ("prefixes", Js.arr [])]) _ rfl rfl rfl

lemma digitChar_toNat {m : Nat} (h : m < 10) : (Nat.digitChar m).toNat = m + 48 := by
  interval_cases m <;> rfl

lemma digitChar_isDigit {m : Nat} (h : m < 10) : (Nat.digitChar m).isDigit = true := by
  interval_cases m <;> rfl

lemma parseDec_append (l : List Char) (c : Char) :
    parseDec (l ++ [c]) = parseDec l * 10 + (c.toNat - 48) := by
  unfold parseDec
  rw [List.foldl_append]
  simp only [List.foldl_cons, List.foldl_nil]

lemma parseDec_natToDecR (n : Nat) : parseDec (natToDecR n) = n := by
  induction n using Nat.strong_induction_on with
  | _ n ih =>
    rw [natToDecR]
    by_cases h0 : n / 10 = 0
    · rw [dif_pos h0]
      unfold parseDec
      simp only [List.foldl_cons, List.foldl_nil]
      rw [digitChar_toNat (by omega)]
      omega
    · rw [dif_neg h0, parseDec_append, ih (n / 10) (Nat.div_lt_self (by omega) (by omega)),
        digitChar_toNat (by omega)]
      omega

lemma natToDecR_inj {m n : Nat} (h : natToDecR m = natToDecR n) : m = n := by
  have hm := parseDec_natToDecR m
  rw [h, parseDec_natToDecR] at hm
  exact hm.symm

lemma natToDecR_digits (n : Nat) : ∀ c ∈ natToDecR n, c.isDigit = true := by
  induction n using Nat.strong_induction_on with
  | _ n ih =>
    rw [natToDecR]
    by_cases h0 : n / 10 = 0
    · rw [dif_pos h0]
      intro c hc
      rw [List.mem_singleton] at hc
      subst hc
      exact digitChar_isDigit (by omega)
    · rw [dif_neg h0]
      intro c hc
      rcases List.mem_append.1 hc with hin | hin
      · exact ih (n / 10) (Nat.div_lt_self (by omega) (by omega)) c hin
      · rw [List.mem_singleton] at hin
        subst hin
        exact digitChar_isDigit (by omega)

lemma toDigitsCore_eq (fuel : Nat) : ∀ (n : Nat) (ds : List Char), n < 10 ^ (fuel + 1) →
    Nat.toDigitsCore 10 (fuel + 1) n ds = natToDecR n ++ ds := by
  induction fuel with
  | zero =>
    intro n ds h
    have h0 : n / 10 = 0 := by omega
    simp only [Nat.toDigitsCore, h0, if_true]
    rw [natToDecR, dif_pos h0]
    rfl
  | succ f ihf =>
    intro n ds h
    by_cases h0 : n / 10 = 0
    · simp only [Nat.toDigitsCore, h0, if_true]
      rw [natToDecR, dif_pos h0]
      rfl
    · have hlt : n / 10 < 10 ^ (f + 1) := by
        rw [Nat.div_lt_iff_lt_mul (by omega)]
        calc n < 10 ^ (f + 2) := h
          _ = 10 ^ (f + 1) * 10 := by ring
      have step : Nat.toDigitsCore 10 (f + 1 + 1) n ds
          = Nat.toDigitsCore 10 (f + 1) (n / 10) (Nat.digitChar (n % 10) :: ds) := by
        simp only [Nat.toDigitsCore, h0, if_false]
      rw [step, ihf (n / 10) _ hlt]
      conv_rhs => rw [natToDecR]
      rw [dif_neg h0, List.append_assoc]
      rfl

lemma repr_data (n : Nat) : (Nat.repr n).data = natToDecR n := by
  have hbound : n < 10 ^ (n + 1) := by
    calc n < 10 ^ n := Nat.lt_pow_self (by omega) n
      _ ≤ 10 ^ (n + 1) := Nat.pow_le_pow_right (by omega) (by omega)
  show (Nat.toDigits 10 n).asString.data = natToDecR n
  unfold Nat.toDigits
  rw [toDigitsCore_eq n n [] hbound, List.append_nil]
  rfl

lemma renderOptNat_inj {d1 d2 : Option Nat} (h : renderOptNat d1 = renderOptNat d2) :
    d1 = d2 := by
  have hundef : ∀ n : Nat, Nat.repr n ≠ "undefined" := by
    intro n hn
    have hd := congrArg String.data hn
    rw [repr_data] at hd
    have := natToDecR_digits n 'u' (by rw [hd]; decide)
    exact absurd this (by decide)
  cases d1 with
  | none =>
    cases d2 with
    | none => rfl
    | some n => exact absurd h.symm (hundef n)
  | some m =>
    cases d2 with
    | none => exact absurd h (hundef m)
    | some n =>
      have h' : Nat.repr m = Nat.repr n := h
      have hd := congrArg String.data h'
      rw [repr_data, repr_data] at hd
      rw [natToDecR_inj hd]

lemma renderOptStr_inj {e1 e2 : Option String} (h1 : e1 ≠ some "undefined")
    (h2 : e2 ≠ some "undefined") (h : renderOptStr e1 = renderOptStr e2) : e1 = e2 := by
  cases e1 with
  | none =>
    cases e2 with
    | none => rfl
    | some s =>
      have hs : ("undefined" : String) = s := h
      exact absurd (congrArg some hs.symm) h2
  | some s =>
    cases e2 with
    | none =>
      have hs : s = ("undefined" : String) := h
      exact absurd (congrArg some hs) h1
    | some t => exact congrArg some (show s = t from h)

lemma append_sep_inj (r1 : List Char) : ∀ (r2 x1 x2 : List Char),
    '_' ∉ r1 → '_' ∉ r2 →
    r1 ++ '_' :: '_' :: x1 = r2 ++ '_' :: '_' :: x2 → r1 = r2 ∧ x1 = x2 := by
  induction r1 with
  | nil =>
    intro r2 x1 x2 h1 h2 h
    cases r2 with
    | nil => simpa using h
    | cons b t =>
      exfalso
      rw [List.nil_append, List.cons_append] at h
      obtain ⟨hb, -⟩ := List.cons.inj h
      apply h2
      rw [← hb]
      exact List.mem_cons_self '_' t
  | cons a t ih =>
    intro r2 x1 x2 h1 h2 h
    cases r2 with
    | nil =>
      exfalso
      rw [List.nil_append, List.cons_append] at h
      obtain ⟨ha, -⟩ := List.cons.inj h
      apply h1
      rw [ha]
      exact List.mem_cons_self '_' t
    | cons b t2 =>
      rw [List.cons_append, List.cons_append] at h
      obtain ⟨hab, hrest⟩ := List.cons.inj h
      obtain ⟨he, hx⟩ := ih t2 x1 x2
        (fun hm => h1 (List.mem_cons_of_mem a hm))
        (fun hm => h2 (List.mem_cons_of_mem b hm)) hrest
      exact ⟨by rw [hab, he], hx⟩

lemma cacheKey_data (cs : AwsCredentialConfig) :
    (cacheKey cs).data
      = cs.roleArn.data
          ++ '_' :: '_' :: ((renderOptStr cs.externalId).data
            ++ '_' :: '_' :: (renderOptNat cs.roleSessionDuration).data) := by
  unfold cacheKey
  simp only [String.data_append, List.append_assoc]
  rfl

lemma cacheKey_split {cs1 cs2 : AwsCredentialConfig}
    (h1 : '_' ∉ cs1.roleArn.data) (h2 : '_' ∉ cs2.roleArn.data)
    (he1 : '_' ∉ (renderOptStr cs1.externalId).data)
    (he2 : '_' ∉ (renderOptStr cs2.externalId).data)
    (h : cacheKey cs1 = cacheKey cs2) :
    cs1.roleArn = cs2.roleArn
    ∧ renderOptStr cs1.externalId = renderOptStr cs2.externalId
    ∧ renderOptNat cs1.roleSessionDuration = renderOptNat cs2.roleSessionDuration := by
  have hd := congrArg String.data h
  rw [cacheKey_data, cacheKey_data] at hd
  obtain ⟨hr, hrest⟩ := append_sep_inj _ _ _ _ h1 h2 hd
  obtain ⟨he, hdur⟩ := append_sep_inj _ _ _ _ he1 he2 hrest
  exact ⟨string_data_inj hr, string_data_inj he, string_data_inj hdur⟩

/-- C9 counterexample: two descriptors with different `roleArn` values — and
so different effective roles — receive the same cache identity key, because
the plain string interpolation lets `__` inside a field collide with the
separator; the identity-key derivation is not injective. -/
theorem c9_counterexample :
    cacheKey exCfgColl1 = cacheKey exCfgColl2
    ∧ exCfgColl1.roleArn ≠ exCfgColl2.roleArn := by
  exact ⟨rfl, by decide⟩

/-- C9 as amended: the identity key depends only on the triple, and on
descriptors whose `roleArn` and rendered `externalId` contain no underscore
and whose `externalId`, when present, is not the literal string "undefined",
the derivation is injective: equal keys force equal `roleArn`, `externalId`
and `roleSessionDuration`, so such lookups never share a client across
different effective roles. -/
theorem c9_amended (cs1 cs2 : AwsCredentialConfig)
    (h1 : '_' ∉ cs1.roleArn.data) (h2 : '_' ∉ cs2.roleArn.data)
    (he1 : '_' ∉ (renderOptStr cs1.externalId).data)
    (he2 : '_' ∉ (renderOptStr cs2.externalId).data)
    (hu1 : cs1.externalId ≠ some "undefined") (hu2 : cs2.externalId ≠ some "undefined")
    (hk : cacheKey cs1 = cacheKey cs2) :
    cs1.roleArn = cs2.roleArn ∧ cs1.externalId = cs2.externalId
    ∧ cs1.roleSessionDuration = cs2.roleSessionDuration := by
  obtain ⟨hr, he, hd⟩ := cacheKey_split h1 h2 he1 he2 hk
  exact ⟨hr, renderOptStr_inj hu1 hu2 he, renderOptNat_inj hd⟩

/-- C9 amended witness: two well-formed descriptors differing only in prefix
have equal keys, and the amended injectivity recovers the equality of their
identity triples. -/
theorem c9_amended_witness :
    ('_' ∉ exCfgB.roleArn.data ∧ '_' ∉ (renderOptStr exCfgB.externalId).data
      ∧ exCfgB.externalId ≠ some "undefined" ∧ cacheKey exCfgB = cacheKey exCfgB2)
    ∧ (exCfgB.roleArn = exCfgB2.roleArn ∧ exCfgB.externalId = exCfgB2.externalId
      ∧ exCfgB.roleSessionDuration = exCfgB2.roleSessionDuration) := by
  refine ⟨⟨by decide, by decide, by decide, rfl⟩, ?_⟩
  exact c9_amended exCfgB exCfgB2 (by decide) (by decide) (by decide) (by decide)
    (by decide) (by decide) rfl
